import Mathlib

/-!
Verification of the core line-parsing / identifier-extraction pipeline of
golang-qase-testing-reporter (`main.go`), shallowly embedded in Lean 4.

Embedding conventions:
* Go `int` / `int64` become `Nat` / `Int`; `strconv.Atoi` keeps its range
  check against the 64-bit `int` maximum, since overflow is observable there.
* A raw input line is abstracted to the outcome of `json.Unmarshal`
  (`RawLine`): either undecodable, or a decoded `ReportJsonLine` record.
  Likewise the optional RFC3339 `time` string field is abstracted to its
  parse outcome (`TimeField`): empty string, a parseable UTC instant, or a
  malformed non-empty string.
* Go `float64` (`Elapsed`) is modelled as `ℚ`; at every concrete input used
  below the `float64` arithmetic performed by the source is exact, so the
  rational model agrees with the binary floating-point computation there.
* The scanner of `processFile` is modelled as the list of lines it delivers
  plus a flag saying whether it stopped because of a read error.
-/

namespace QaseReporter

/-- Status constants of `main.go`. -/
def TEST_CASE_RESULT_STATUS_PASSED : String := "passed"

/-- Status constants of `main.go`. -/
def TEST_CASE_RESULT_STATUS_FAILED : String := "failed"

/-- Largest value of Go `int` (64-bit platform), the bound checked by
`strconv.Atoi`. -/
def MAX_INT : Nat := 2 ^ 63 - 1

/-- Longest leading run of decimal digits and the remainder: the greedy
`\d+` step of the regex engine. -/
def spanDigits : List Char → List Char × List Char
  | [] => ([], [])
  | c :: cs =>
    if c.isDigit then
      let p := spanDigits cs
      (c :: p.1, p.2)
    else ([], c :: cs)

/-- All group-1 captures of the Go `regexp.FindAllStringSubmatch` for the
pattern `QASE-(\d+)`: scanning left to right, a match needs the literal
prefix `QASE-` followed by at least one digit and takes the maximal digit
run as its capture group.  The scan below advances one character after
every position, matched or not; this yields exactly the engine
non-overlapping match list, because a match contains the character `Q`
only at its first position (`ASE-` and decimal digits contain no `Q`), so
no match can begin strictly inside another. -/
def qaseMatches : List Char → List (List Char)
  | [] => []
  | 'Q' :: 'A' :: 'S' :: 'E' :: '-' :: rest =>
    match spanDigits rest with
    | ([], _) => qaseMatches ('A' :: 'S' :: 'E' :: '-' :: rest)
    | (d :: ds, _) => (d :: ds) :: qaseMatches ('A' :: 'S' :: 'E' :: '-' :: rest)
  | _ :: cs => qaseMatches cs

deriving instance DecidableEq for Except

/-- Value of a decimal digit string, as accumulated by `strconv.Atoi`. -/
def digitsToNat (ds : List Char) : Nat :=
  ds.foldl (fun acc c => acc * 10 + (c.toNat - 48)) 0

/-- Model of `strconv.Atoi` applied to a regex-validated digit group: every character
is a decimal digit, so the only remaining failure mode is the range check
against the platform `int`. -/
def atoiDigits (ds : List Char) : Except String Nat :=
  if digitsToNat ds ≤ MAX_INT then .ok (digitsToNat ds) else .error "value out of range"

/-- Function `ParseQaseId` of `main.go`: all matches of `QASE-(\d+)`; none means
`(0, nil)`; otherwise `Atoi` of the last match digit group, any `Atoi`
failure becoming the error `"failed to parse Qase ID"`. -/
def ParseQaseId (test : String) : Except String Nat :=
  match (qaseMatches test.toList).getLast? with
  | none => .ok 0
  | some lastMatch =>
    match atoiDigits lastMatch with
    | .ok qaseId => .ok qaseId
    | .error _ => .error "failed to parse Qase ID"

/-- Parse outcome of the optional RFC3339 `Time` string field: `absent`
models the empty string, `valid t` a string parsing to the UTC instant `t`,
`malformed` a non-empty string `time.Parse` rejects. -/
inductive TimeField
  | absent
  | valid (t : Int)
  | malformed
deriving DecidableEq

/-- The decoded fields of one JSON report line (`ReportJsonLine` in
`main.go`). -/
structure ReportJsonLine where
  time : TimeField
  test : String
  action : String
  package : String
  output : String
  elapsed : ℚ
deriving DecidableEq

/-- Structure `ReportResult` of `main.go`; `time = none` models the Go zero
`time.Time`. -/
structure ReportResult where
  package : String := ""
  testCaseId : Nat := 0
  status : String := ""
  time : Option Int := none
  timeMs : Int := 0
deriving DecidableEq

/-- One raw input line, abstracted to its `json.Unmarshal` outcome. -/
inductive RawLine
  | badJson
  | record (content : ReportJsonLine)
deriving DecidableEq

/-- The distinct error returns of `processLine`, in source order. -/
inductive LineError
  | decodeError
  | noTestName
  | parseIdError
  | noQaseId
  | unknownAction
  | badTime
deriving DecidableEq

/-- The Go `int64(f)` conversion: the fractional part is discarded, i.e.
truncation toward zero. -/
def ratTrunc (q : ℚ) : Int := if 0 ≤ q then ⌊q⌋ else ⌈q⌉

/-- The action check of `processLine`: `"fail"` maps to failed, `"pass"` to
passed, anything else is unknown. -/
def statusOfAction (action : String) : Option String :=
  if action = "fail" then some TEST_CASE_RESULT_STATUS_FAILED
  else if action = "pass" then some TEST_CASE_RESULT_STATUS_PASSED
  else none

/-- Embedding of the `content.Time != ""` branch of `processLine`: absent keeps the zero
value, a valid string yields its instant (already UTC-normalised), a
malformed string is a parse error. -/
def timeOf : TimeField → Option (Option Int)
  | .absent => some none
  | .valid t => some (some t)
  | .malformed => none

/-- Function `processLine` of `main.go`, with the checks in source order: JSON
decoding, empty test name, `ParseQaseId` failure, id zero, action, time,
then the elapsed and package fields of the result. -/
def processLine : RawLine → Except LineError ReportResult
  | .badJson => .error .decodeError
  | .record content =>
    if content.test = "" then .error .noTestName
    else
      match ParseQaseId content.test with
      | .error _ => .error .parseIdError
      | .ok qaseId =>
        if qaseId = 0 then .error .noQaseId
        else
          match statusOfAction content.action with
          | none => .error .unknownAction
          | some status =>
            match timeOf content.time with
            | none => .error .badTime
            | some t =>
              .ok { testCaseId := qaseId
                    status := status
                    time := t
                    timeMs := if content.elapsed ≠ 0 then ratTrunc (content.elapsed * 1000) else 0
                    package := if content.package ≠ "" then content.package else "" }

/-- The two ways `processFile` can fail after opening the file: the
2000-entry bulk limit, or a scanner read error. -/
inductive FileError
  | limitReached
  | readError
deriving DecidableEq

/-- The scanner loop of `processFile`: failed lines and zero ids are
skipped, each produced result is appended, and the loop returns early with
`limitReached` the moment the batch length reaches 2000. -/
def processFileLoop : List RawLine → List ReportResult → List ReportResult × Option FileError
  | [], results => (results, none)
  | l :: ls, results =>
    match processLine l with
    | .error _ => processFileLoop ls results
    | .ok result =>
      if result.testCaseId = 0 then processFileLoop ls results
      else
        let results2 := results ++ [result]
        if results2.length = 2000 then (results2, some .limitReached)
        else processFileLoop ls results2

/-- Function `processFile` of `main.go` after the file is opened: `lines` are the
lines the scanner delivers, `ioErr` says whether it then stopped with a
read error (`scanner.Err() != nil`).  Note the Go function uses named
returns, so the error cases still carry the accumulated `results`. -/
def processFile (lines : List RawLine) (ioErr : Bool) : List ReportResult × Option FileError :=
  match processFileLoop lines [] with
  | (results, some e) => (results, some e)
  | (results, none) => if ioErr then (results, some .readError) else (results, none)

/-- The contribution of a single line to the batch: nothing on a
`processLine` failure or a zero id, otherwise the produced result. -/
def entryOf (l : RawLine) : Option ReportResult :=
  match processLine l with
  | .error _ => none
  | .ok r => if r.testCaseId = 0 then none else some r

/-- All entries an input contributes, in order, before the 2000 cap. -/
def entriesOf (lines : List RawLine) : List ReportResult :=
  lines.filterMap entryOf

/-- Structure `ReportResultOutput` of `main.go`. -/
structure ReportResultOutput where
  testCaseId : Nat
  status : String
deriving DecidableEq

/-- Structure `ReportOutputTestRun` of `main.go`. -/
structure ReportOutputTestRun where
  testCaseId : Nat
  status : String
deriving DecidableEq

/-- Structure `ReportOutput` of `main.go`. -/
structure ReportOutput where
  runId : Int
  testRuns : List ReportOutputTestRun
deriving DecidableEq

/-- The output list built by `createTestRunResults` (the HTTP submission it
interleaves is elided): one `(TestCaseId, Status)` per result, in order. -/
def createTestRunResultOutputs (results : List ReportResult) : List ReportResultOutput :=
  results.map fun r => { testCaseId := r.testCaseId, status := r.status }

/-- Function `createOutput` of `main.go`: keeps the `(TestCaseId, Status)` pairs with
non-zero id, in order. -/
def createOutput (runId : Int) (testRunResultOutputs : List ReportResultOutput) : ReportOutput :=
  { runId := runId
    testRuns := testRunResultOutputs.foldl (fun acc o =>
      if o.testCaseId = 0 then acc
      else acc ++ [{ testCaseId := o.testCaseId, status := o.status }]) [] }

/-- The multi-identifier record of the spec example line
`{"Action":"pass","Package":"github.com/test","Test":"TestCase/QASE-123/QASE-456","Elapsed":10}`. -/
def sampleMultiIdRecord : ReportJsonLine :=
  { time := .absent, test := "TestCase/QASE-123/QASE-456", action := "pass"
    package := "github.com/test", output := "", elapsed := 10 }

/-- What `processLine` actually produces on `sampleMultiIdRecord`. -/
def sampleMultiIdResult : ReportResult :=
  { package := "github.com/test", testCaseId := 456, status := "passed"
    time := none, timeMs := 10000 }

/-- A validated record whose test name carries no identifier. -/
def sampleNoIdRecord : ReportJsonLine :=
  { time := .absent, test := "TestCase", action := "pass"
    package := "github.com/test", output := "", elapsed := 0 }

/-- A minimal valid passing line. -/
def samplePassRecord : ReportJsonLine :=
  { time := .absent, test := "QASE-7", action := "pass"
    package := "", output := "", elapsed := 0 }

/-- The line for `samplePassRecord`. -/
def samplePassLine : RawLine := .record samplePassRecord

/-- The entry `samplePassLine` contributes. -/
def samplePassResult : ReportResult :=
  { package := "", testCaseId := 7, status := "passed", time := none, timeMs := 0 }

/-- A record whose elapsed seconds value `1/16 = 0.0625` is exactly
representable in `float64`, as is the product `0.0625 * 1000 = 62.5`, so
the rational model coincides with the source floating-point arithmetic
on it. -/
def sampleElapsedRecord : ReportJsonLine :=
  { time := .absent, test := "QASE-8", action := "pass"
    package := "", output := "", elapsed := 1 / 16 }

/-- A digit group whose value `2^63` exceeds the 64-bit `int` range. -/
def overflowTestName : String := "QASE-9223372036854775808"

/-! ### General lemmas about `ParseQaseId` and `processLine` -/

theorem ParseQaseId_of_no_match (s : String) (h : qaseMatches s.toList = []) :
    ParseQaseId s = .ok 0 := by
  simp only [ParseQaseId, h, List.getLast?_nil]

theorem ParseQaseId_of_last (s : String) (ds : List Char)
    (h : (qaseMatches s.toList).getLast? = some ds) (hle : digitsToNat ds ≤ MAX_INT) :
    ParseQaseId s = .ok (digitsToNat ds) := by
  simp only [ParseQaseId, h, atoiDigits, if_pos hle]

theorem ParseQaseId_of_overflow (s : String) (ds : List Char)
    (h : (qaseMatches s.toList).getLast? = some ds) (hgt : MAX_INT < digitsToNat ds) :
    ParseQaseId s = .error "failed to parse Qase ID" := by
  simp only [ParseQaseId, h, atoiDigits, if_neg (Nat.not_le.mpr hgt)]

theorem processLine_ok_inv (content : ReportJsonLine) (r : ReportResult)
    (h : processLine (.record content) = .ok r) :
    content.test ≠ "" ∧
    ParseQaseId content.test = .ok r.testCaseId ∧
    0 < r.testCaseId ∧
    statusOfAction content.action = some r.status ∧
    timeOf content.time = some r.time ∧
    r.timeMs = (if content.elapsed = 0 then 0 else ratTrunc (content.elapsed * 1000)) ∧
    r.package = content.package := by
  simp only [processLine] at h
  split at h
  · exact absurd h (by simp)
  · split at h
    · exact absurd h (by simp)
    · next qaseId heq =>
      split at h
      · exact absurd h (by simp)
      · split at h
        · exact absurd h (by simp)
        · next status hst =>
          split at h
          · exact absurd h (by simp)
          · next t ht =>
            rw [Except.ok.injEq] at h
            subst h
            refine ⟨by assumption, heq, by show 0 < qaseId; omega, hst, ht, ?_, ?_⟩
            · by_cases he : content.elapsed = 0 <;> simp [he]
            · by_cases hp : content.package = "" <;> simp [hp]

theorem processLine_ok_id_pos (l : RawLine) (r : ReportResult)
    (h : processLine l = .ok r) : 0 < r.testCaseId := by
  cases l with
  | badJson => exact absurd h (by simp [processLine])
  | record content => exact (processLine_ok_inv content r h).2.2.1

theorem processLine_ok_status (l : RawLine) (r : ReportResult)
    (h : processLine l = .ok r) :
    r.status = TEST_CASE_RESULT_STATUS_PASSED ∨ r.status = TEST_CASE_RESULT_STATUS_FAILED := by
  cases l with
  | badJson => exact absurd h (by simp [processLine])
  | record content =>
    have hs := (processLine_ok_inv content r h).2.2.2.1
    unfold statusOfAction at hs
    split at hs
    · right; exact (Option.some.injEq _ _ ▸ hs).symm
    · split at hs
      · left; exact (Option.some.injEq _ _ ▸ hs).symm
      · exact absurd hs (by simp)

theorem processLine_ok_of (content : ReportJsonLine) (ds : List Char) (st : String)
    (t : Option Int)
    (h1 : content.test ≠ "")
    (h2 : (qaseMatches content.test.toList).getLast? = some ds)
    (h3 : digitsToNat ds ≤ MAX_INT)
    (h4 : digitsToNat ds ≠ 0)
    (h5 : statusOfAction content.action = some st)
    (h6 : timeOf content.time = some t) :
    processLine (.record content) =
      .ok { package := content.package, testCaseId := digitsToNat ds, status := st, time := t
            timeMs := if content.elapsed = 0 then 0 else ratTrunc (content.elapsed * 1000) } := by
  simp only [processLine, if_neg h1, ParseQaseId_of_last content.test ds h2 h3, if_neg h4, h5, h6]
  by_cases hp : content.package = "" <;> by_cases he : content.elapsed = 0 <;>
    simp [hp, he]

/-! ### The batch accumulator -/

theorem entryOf_error (l : RawLine) (e : LineError) (h : processLine l = .error e) :
    entryOf l = none := by
  simp [entryOf, h]

theorem entryOf_eq_some (l : RawLine) (r : ReportResult) (h : entryOf l = some r) :
    processLine l = .ok r := by
  unfold entryOf at h
  split at h
  · exact absurd h (by simp)
  · next r' hpl =>
    split at h
    · exact absurd h (by simp)
    · rw [Option.some.injEq] at h
      subst h
      exact hpl

theorem processFileLoop_spec (lines : List RawLine) (acc : List ReportResult)
    (hacc : acc.length < 2000) :
    processFileLoop lines acc =
      ((acc ++ entriesOf lines).take 2000,
        if 2000 ≤ acc.length + (entriesOf lines).length then some FileError.limitReached
        else none) := by
  induction lines generalizing acc with
  | nil =>
    simp only [processFileLoop, entriesOf, List.filterMap_nil, List.append_nil, List.length_nil]
    rw [List.take_of_length_le (by omega), if_neg (by omega)]
  | cons l ls ih =>
    simp only [processFileLoop]
    cases hpl : processLine l with
    | error e =>
      have hE : entriesOf (l :: ls) = entriesOf ls := by
        simp only [entriesOf, List.filterMap_cons, entryOf_error l e hpl]
      rw [hE, ih acc hacc]
    | ok r =>
      dsimp only
      by_cases hid : r.testCaseId = 0
      · have hE : entriesOf (l :: ls) = entriesOf ls := by
          simp only [entriesOf, List.filterMap_cons, entryOf, hpl, if_pos hid]
        rw [if_pos hid, hE, ih acc hacc]
      · have hE : entriesOf (l :: ls) = r :: entriesOf ls := by
          simp only [entriesOf, List.filterMap_cons, entryOf, hpl, if_neg hid]
        rw [if_neg hid, hE]
        have hlen1 : (acc ++ [r]).length = acc.length + 1 := by simp
        by_cases hfull : (acc ++ [r]).length = 2000
        · rw [if_pos hfull]
          have hcons : acc ++ r :: entriesOf ls = (acc ++ [r]) ++ entriesOf ls := by simp
          have htake : ((acc ++ [r]) ++ entriesOf ls).take 2000 = acc ++ [r] := by
            rw [← hfull]
            exact List.take_left _ _
          rw [hcons, htake, if_pos (by simp only [List.length_cons]; omega)]
        · rw [if_neg hfull]
          rw [ih (acc ++ [r]) (by omega)]
          refine congrArg₂ Prod.mk ?_ ?_
          · rw [show (acc ++ [r]) ++ entriesOf ls = acc ++ r :: entriesOf ls from by simp]
          · exact if_congr (by simp only [List.length_cons]; omega) rfl rfl

theorem processFile_spec (lines : List RawLine) (ioErr : Bool) :
    processFile lines ioErr =
      ((entriesOf lines).take 2000,
        if 2000 ≤ (entriesOf lines).length then some FileError.limitReached
        else if ioErr then some FileError.readError else none) := by
  unfold processFile
  rw [processFileLoop_spec lines [] (by norm_num)]
  simp only [List.nil_append, List.length_nil, Nat.zero_add]
  by_cases hc : 2000 ≤ (entriesOf lines).length
  · rw [if_pos hc, if_pos hc]
  · rw [if_neg hc, if_neg hc]
    cases ioErr <;> simp

theorem mem_entriesOf (lines : List RawLine) (r : ReportResult) (h : r ∈ entriesOf lines) :
    ∃ l ∈ lines, processLine l = .ok r := by
  rcases List.mem_filterMap.mp h with ⟨l, hl, he⟩
  exact ⟨l, hl, entryOf_eq_some l r he⟩

theorem processFile_skip (l : RawLine) (e : LineError) (pre post : List RawLine) (ioErr : Bool)
    (h : processLine l = .error e) :
    processFile (pre ++ l :: post) ioErr = processFile (pre ++ post) ioErr := by
  have hent : entriesOf (pre ++ l :: post) = entriesOf (pre ++ post) := by
    simp only [entriesOf, List.filterMap_append, List.filterMap_cons, entryOf_error l e h]
  rw [processFile_spec, processFile_spec, hent]

theorem createOutput_mem_inv (outs : List ReportResultOutput)
    (init : List ReportOutputTestRun) (o : ReportOutputTestRun)
    (h : o ∈ outs.foldl (fun acc s =>
        if s.testCaseId = 0 then acc
        else acc ++ [{ testCaseId := s.testCaseId, status := s.status }]) init) :
    o ∈ init ∨ ∃ src ∈ outs, src.testCaseId ≠ 0 ∧
      o = { testCaseId := src.testCaseId, status := src.status } := by
  induction outs generalizing init with
  | nil => left; simpa using h
  | cons s ss ih =>
    rw [List.foldl_cons] at h
    rcases ih _ h with hin | ⟨src, hsrc, hne, rfl⟩
    · by_cases hz : s.testCaseId = 0
      · rw [if_pos hz] at hin
        left; exact hin
      · rw [if_neg hz] at hin
        rcases List.mem_append.mp hin with h1 | h2
        · left; exact h1
        · right
          exact ⟨s, List.mem_cons_self s ss, hz, by simpa using h2⟩
    · right
      exact ⟨src, List.mem_cons_of_mem s hsrc, hne, rfl⟩

/-! ### Claim C1 -/

/-- Claim C1, counterexample: on `"QASE-123/Halohalo_QASE-456"` the pattern
occurs twice, with digit-group values `[123, 456]`, yet `ParseQaseId`
produces the single integer `456` — the last occurrence, not the sequence
of all occurrences, and in particular never the first value `123`. -/
theorem c1_counterexample :
    (qaseMatches "QASE-123/Halohalo_QASE-456".toList).map digitsToNat = [123, 456] ∧
    ParseQaseId "QASE-123/Halohalo_QASE-456" = .ok 456 ∧
    ParseQaseId "QASE-123/Halohalo_QASE-456" ≠ .ok 123 := by
  decide

/-- Claim C1, amended: `ParseQaseId` returns the integer value of the last
(rightmost) occurrence of `QASE-` followed by digits — `456` on
`"QASE-123/Halohalo_QASE-456"` — and on a string with no occurrence
(including `""`, `"QASE-"`, `"QASE-abc"`) it returns `0` without error. -/
theorem c1_last_occurrence (s : String) :
    (qaseMatches s.toList = [] → ParseQaseId s = .ok 0) ∧
    (∀ ds, (qaseMatches s.toList).getLast? = some ds → digitsToNat ds ≤ MAX_INT →
      ParseQaseId s = .ok (digitsToNat ds)) ∧
    ParseQaseId "" = .ok 0 ∧
    ParseQaseId "QASE-" = .ok 0 ∧
    ParseQaseId "QASE-abc" = .ok 0 ∧
    ParseQaseId "QASE-123/Halohalo_QASE-456" = .ok 456 := by
  refine ⟨ParseQaseId_of_no_match s, fun ds h hle => ParseQaseId_of_last s ds h hle,
    by decide, by decide, by decide, by decide⟩

/-- Claim C1, witness: the amended theorem applied to the concrete input,
with its hypotheses discharged by evaluation. -/
theorem c1_witness :
    ParseQaseId "QASE-123/Halohalo_QASE-456" = .ok (digitsToNat ['4', '5', '6']) :=
  (c1_last_occurrence "QASE-123/Halohalo_QASE-456").2.1 ['4', '5', '6']
    (by decide) (by decide)

/-! ### Claim C9 -/

/-- Claim C9, counterexample: the integer-conversion error branch of
`ParseQaseId` is reachable — the digit group `9223372036854775808 = 2^63`
matches the pattern but exceeds the 64-bit `int` range, so `strconv.Atoi`
fails and `ParseQaseId` returns an error. -/
theorem c9_counterexample :
    ParseQaseId overflowTestName = .error "failed to parse Qase ID" := by
  decide

/-- Claim C9, amended: `ParseQaseId` returns an error exactly when the
pattern matches and the digit group of the last match exceeds the 64-bit
`int` range; for any in-range digit group the conversion cannot fail. -/
theorem c9_error_iff_overflow (s : String) :
    ParseQaseId s = .error "failed to parse Qase ID" ↔
      ∃ ds, (qaseMatches s.toList).getLast? = some ds ∧ MAX_INT < digitsToNat ds := by
  constructor
  · intro h
    unfold ParseQaseId at h
    split at h
    · exact absurd h (by simp)
    · next ds hds =>
      split at h
      · exact absurd h (by simp)
      · next e he =>
        refine ⟨ds, hds, ?_⟩
        unfold atoiDigits at he
        split at he
        · exact absurd he (by simp)
        · next hnle => omega
  · rintro ⟨ds, hds, hgt⟩
    exact ParseQaseId_of_overflow s ds hds hgt

/-! ### Claim C10 -/

/-- Claim C10, confirmed: for a test name whose last `QASE-<digits>`
occurrence has a value within the `int` range, `ParseQaseId` returns that
last value, and the batch accumulator materializes at most one entry per
input line. -/
theorem c10_last_match_one_entry_per_line (s : String) (ds : List Char)
    (lines : List RawLine) (ioErr : Bool)
    (h : (qaseMatches s.toList).getLast? = some ds)
    (hle : digitsToNat ds ≤ MAX_INT) :
    ParseQaseId s = .ok (digitsToNat ds) ∧
    (processFile lines ioErr).1.length ≤ lines.length := by
  refine ⟨ParseQaseId_of_last s ds h hle, ?_⟩
  rw [processFile_spec]
  have h1 : ((entriesOf lines).take 2000).length ≤ (entriesOf lines).length := by
    rw [List.length_take]
    exact min_le_right _ _
  exact le_trans h1 (List.length_filterMap_le _ _)

/-- Claim C10, witness: the theorem applied to the multi-identifier test
name and a one-line input. -/
theorem c10_witness :
    ParseQaseId "QASE-123/Halohalo_QASE-456" = .ok (digitsToNat ['4', '5', '6']) ∧
    (processFile [samplePassLine] false).1.length ≤ [samplePassLine].length :=
  c10_last_match_one_entry_per_line "QASE-123/Halohalo_QASE-456" ['4', '5', '6']
    [samplePassLine] false (by decide) (by decide)

/-! ### Claim C2 -/

/-- Claim C2, counterexample: the raw line
`{"Action":"pass","Package":"github.com/test","Test":"TestCase/QASE-123/QASE-456","Elapsed":10}`
yields exactly ONE result entry, whose identifier is `456` — not two
entries with identifiers 123 and 456. -/
theorem ratTrunc_ten_thousand : ratTrunc ((10 : ℚ) * 1000) = 10000 := by
  unfold ratTrunc
  rw [if_pos (by norm_num), Int.floor_eq_iff]
  constructor <;> norm_num

theorem sampleMultiIdLine_result :
    processLine (.record sampleMultiIdRecord) = .ok sampleMultiIdResult := by
  have h := processLine_ok_of sampleMultiIdRecord ['4', '5', '6']
    TEST_CASE_RESULT_STATUS_PASSED none
    (by decide) (by decide) (by decide) (by decide) (by decide) (by decide)
  rw [h]
  have he : sampleMultiIdRecord.elapsed = (10 : ℚ) := rfl
  simp only [he, sampleMultiIdResult, sampleMultiIdRecord]
  rw [if_neg (by norm_num), ratTrunc_ten_thousand]
  decide

theorem c2_counterexample :
    processLine (.record sampleMultiIdRecord) = .ok sampleMultiIdResult ∧
    sampleMultiIdResult.testCaseId = 456 ∧
    sampleMultiIdResult.testCaseId ≠ 123 ∧
    entriesOf [RawLine.record sampleMultiIdRecord] = [sampleMultiIdResult] := by
  refine ⟨sampleMultiIdLine_result, by decide, by decide, ?_⟩
  simp only [entriesOf, List.filterMap_cons, List.filterMap_nil, entryOf,
    sampleMultiIdLine_result]
  rw [if_neg (by decide)]

/-- Claim C2, amended: one validated record yields exactly one entry,
carrying the value of the LAST identifier occurrence in its test name,
with status mapped 1:1 from the action (`pass`→`passed`, `fail`→`failed`),
the record package, the parsed timestamp (unset if absent), and
elapsed-milliseconds `trunc(elapsed * 1000)` when elapsed is non-zero,
else zero; on the example line the single entry has identifier 456, status
`passed`, elapsed-milliseconds 10000 and package `github.com/test`. -/
theorem c2_one_entry_per_line (content : ReportJsonLine) (ds : List Char) (st : String)
    (t : Option Int)
    (h1 : content.test ≠ "")
    (h2 : (qaseMatches content.test.toList).getLast? = some ds)
    (h3 : digitsToNat ds ≤ MAX_INT)
    (h4 : digitsToNat ds ≠ 0)
    (h5 : statusOfAction content.action = some st)
    (h6 : timeOf content.time = some t) :
    processLine (.record content) =
      .ok { package := content.package, testCaseId := digitsToNat ds, status := st, time := t
            timeMs := if content.elapsed = 0 then 0 else ratTrunc (content.elapsed * 1000) } ∧
    entriesOf [RawLine.record content] =
      [{ package := content.package, testCaseId := digitsToNat ds, status := st, time := t
         timeMs := if content.elapsed = 0 then 0 else ratTrunc (content.elapsed * 1000) }] := by
  have hok := processLine_ok_of content ds st t h1 h2 h3 h4 h5 h6
  refine ⟨hok, ?_⟩
  simp only [entriesOf, List.filterMap_cons, List.filterMap_nil, entryOf, hok, if_neg h4]

/-- Claim C2, witness: the amended theorem applied to the example line. -/
theorem c2_witness :
    processLine (.record sampleMultiIdRecord) =
      .ok { package := sampleMultiIdRecord.package
            testCaseId := digitsToNat ['4', '5', '6']
            status := TEST_CASE_RESULT_STATUS_PASSED
            time := none
            timeMs := if sampleMultiIdRecord.elapsed = 0 then 0
                      else ratTrunc (sampleMultiIdRecord.elapsed * 1000) } ∧
    entriesOf [RawLine.record sampleMultiIdRecord] =
      [{ package := sampleMultiIdRecord.package
         testCaseId := digitsToNat ['4', '5', '6']
         status := TEST_CASE_RESULT_STATUS_PASSED
         time := none
         timeMs := if sampleMultiIdRecord.elapsed = 0 then 0
                   else ratTrunc (sampleMultiIdRecord.elapsed * 1000) }] :=
  c2_one_entry_per_line sampleMultiIdRecord ['4', '5', '6']
    TEST_CASE_RESULT_STATUS_PASSED none
    (by decide) (by decide) (by decide) (by decide) (by decide) (by decide)

/-! ### Claim C3 -/

/-- Claim C3, counterexample: a validated record whose test name
(`"TestCase"`) carries no identifier makes `processLine` return an
error (`no Qase ID found in test name`), contradicting the claim that
processing such a line succeeds with an empty entry sequence. -/
theorem c3_counterexample :
    processLine (.record sampleNoIdRecord) = .error LineError.noQaseId := by
  decide

/-- Claim C3, amended: a validated record with zero identifier occurrences
makes `processLine` return the `no Qase ID found` error; the batch
accumulator then skips the line — it contributes no entries and the run is
unaffected, as if the line were removed from the input. -/
theorem c3_no_id_error_skipped (content : ReportJsonLine) (pre post : List RawLine)
    (ioErr : Bool)
    (h1 : content.test ≠ "") (h2 : qaseMatches content.test.toList = []) :
    processLine (.record content) = .error LineError.noQaseId ∧
    processFile (pre ++ RawLine.record content :: post) ioErr =
      processFile (pre ++ post) ioErr := by
  have hpl : processLine (.record content) = .error .noQaseId := by
    simp [processLine, if_neg h1, ParseQaseId_of_no_match content.test h2]
  exact ⟨hpl, processFile_skip _ _ pre post ioErr hpl⟩

/-- Claim C3, witness: the amended theorem applied to the `"TestCase"`
record in a singleton input. -/
theorem c3_witness :
    processLine (.record sampleNoIdRecord) = .error LineError.noQaseId ∧
    processFile ([] ++ RawLine.record sampleNoIdRecord :: []) false =
      processFile ([] ++ []) false :=
  c3_no_id_error_skipped sampleNoIdRecord [] [] false (by decide) (by decide)

/-! ### Claim C5 -/

/-- Claim C5, confirmed: a line that does not decode, or whose test field
is empty, or whose action is neither `pass` nor `fail`, makes `processLine`
fail (with the decode error exactly in the undecodable case, a
validation-side error otherwise), and the batch accumulator skips it: the
accumulated batch equals the batch of the input with that line removed,
and processing continues. -/
theorem c5_invalid_line_skipped (l : RawLine) (pre post : List RawLine) (ioErr : Bool)
    (h : l = RawLine.badJson ∨
         (∃ content, l = RawLine.record content ∧ content.test = "") ∨
         (∃ content, l = RawLine.record content ∧ statusOfAction content.action = none)) :
    (∃ e, processLine l = .error e ∧
      (l = RawLine.badJson → e = LineError.decodeError) ∧
      (∀ content, l = RawLine.record content → e ≠ LineError.decodeError)) ∧
    processFile (pre ++ l :: post) ioErr = processFile (pre ++ post) ioErr := by
  have he : ∃ e, processLine l = .error e ∧
      (l = RawLine.badJson → e = LineError.decodeError) ∧
      (∀ content, l = RawLine.record content → e ≠ LineError.decodeError) := by
    rcases h with rfl | ⟨content, rfl, ht⟩ | ⟨content, rfl, ha⟩
    · exact ⟨.decodeError, rfl, fun _ => rfl, fun content hc => absurd hc (by simp)⟩
    · exact ⟨.noTestName, by simp only [processLine, if_pos ht],
        fun hc => absurd hc (by simp), fun _ _ => by simp⟩
    · by_cases ht : content.test = ""
      · exact ⟨.noTestName, by simp only [processLine, if_pos ht],
          fun hc => absurd hc (by simp), fun _ _ => by simp⟩
      · cases hq : ParseQaseId content.test with
        | error msg =>
          exact ⟨.parseIdError, by simp only [processLine, if_neg ht, hq],
            fun hc => absurd hc (by simp), fun _ _ => by simp⟩
        | ok q =>
          by_cases hz : q = 0
          · subst hz
            exact ⟨.noQaseId, by simp [processLine, if_neg ht, hq],
              fun hc => absurd hc (by simp), fun _ _ => by simp⟩
          · exact ⟨.unknownAction,
              by simp only [processLine, if_neg ht, hq, if_neg hz, ha],
              fun hc => absurd hc (by simp), fun _ _ => by simp⟩
  refine ⟨he, ?_⟩
  obtain ⟨e, hpl, -, -⟩ := he
  exact processFile_skip l e pre post ioErr hpl

/-- Claim C5, witness: the theorem applied to an undecodable line in a
singleton input. -/
theorem c5_witness :
    (∃ e, processLine RawLine.badJson = .error e ∧
      (RawLine.badJson = RawLine.badJson → e = LineError.decodeError) ∧
      (∀ content, RawLine.badJson = RawLine.record content →
        e ≠ LineError.decodeError)) ∧
    processFile ([] ++ RawLine.badJson :: []) false = processFile ([] ++ []) false :=
  c5_invalid_line_skipped RawLine.badJson [] [] false (Or.inl rfl)

/-! ### Claim C4 -/

/-- Claim C4, confirmed: the batch accumulator never returns more than 2000
entries; it signals the capacity condition exactly when the input would
produce at least 2000 entries (the signal is raised the instant the 2000th
entry is appended, before any further line is consumed); and the returned
batch is precisely the first 2000 entries produced by the input — so when
the condition is signalled the partial batch has exactly 2000 entries, and
lines past the cap never contribute. -/
theorem c4_batch_cap (lines : List RawLine) (ioErr : Bool) :
    (processFile lines ioErr).1.length ≤ 2000 ∧
    ((processFile lines ioErr).2 = some FileError.limitReached ↔
      2000 ≤ (entriesOf lines).length) ∧
    (processFile lines ioErr).1 = (entriesOf lines).take 2000 := by
  rw [processFile_spec]
  dsimp only
  refine ⟨?_, ?_, rfl⟩
  · rw [List.length_take]
    exact min_le_left _ _
  · by_cases hc : 2000 ≤ (entriesOf lines).length
    · simp [hc]
    · rw [if_neg hc]
      constructor
      · intro hEq
        cases ioErr <;> simp_all
      · intro hc2
        exact absurd hc2 hc

/-! ### Claim C6 -/

/-- Claim C6, confirmed: every entry ever materialized into the batch has a
strictly positive identifier and a status that is either `passed` or
`failed`, and so does every pair of the `TestRuns` list that `createOutput`
builds from those entries. -/
theorem c6_entries_valid (lines : List RawLine) (ioErr : Bool) (runId : Int) :
    (∀ r ∈ (processFile lines ioErr).1,
       0 < r.testCaseId ∧
       (r.status = TEST_CASE_RESULT_STATUS_PASSED ∨
        r.status = TEST_CASE_RESULT_STATUS_FAILED)) ∧
    (∀ o ∈ (createOutput runId
        (createTestRunResultOutputs (processFile lines ioErr).1)).testRuns,
       0 < o.testCaseId ∧
       (o.status = TEST_CASE_RESULT_STATUS_PASSED ∨
        o.status = TEST_CASE_RESULT_STATUS_FAILED)) := by
  have hmem : ∀ r ∈ (processFile lines ioErr).1,
      0 < r.testCaseId ∧
      (r.status = TEST_CASE_RESULT_STATUS_PASSED ∨
       r.status = TEST_CASE_RESULT_STATUS_FAILED) := by
    intro r hr
    rw [processFile_spec] at hr
    dsimp only at hr
    obtain ⟨l, -, hok⟩ := mem_entriesOf lines r (List.mem_of_mem_take hr)
    exact ⟨processLine_ok_id_pos l r hok, processLine_ok_status l r hok⟩
  refine ⟨hmem, ?_⟩
  intro o ho
  simp only [createOutput] at ho
  rcases createOutput_mem_inv _ _ _ ho with hin | ⟨src, hsrc, hne, rfl⟩
  · exact absurd hin (List.not_mem_nil o)
  · simp only [createTestRunResultOutputs] at hsrc
    rcases List.mem_map.mp hsrc with ⟨r, hr, rfl⟩
    have hprops := hmem r hr
    exact ⟨hprops.1, hprops.2⟩

/-- Claim C6, witness: the invariant instantiated on a concrete one-line
input, for the batch entry and for the output pair it produces. -/
theorem c6_witness :
    (0 < samplePassResult.testCaseId ∧
      (samplePassResult.status = TEST_CASE_RESULT_STATUS_PASSED ∨
       samplePassResult.status = TEST_CASE_RESULT_STATUS_FAILED)) ∧
    (0 < ({ testCaseId := 7, status := "passed" } : ReportOutputTestRun).testCaseId ∧
      (({ testCaseId := 7, status := "passed" } : ReportOutputTestRun).status =
          TEST_CASE_RESULT_STATUS_PASSED ∨
       ({ testCaseId := 7, status := "passed" } : ReportOutputTestRun).status =
          TEST_CASE_RESULT_STATUS_FAILED)) :=
  ⟨(c6_entries_valid [samplePassLine] false 0).1 samplePassResult (by decide),
   (c6_entries_valid [samplePassLine] false 0).2
     { testCaseId := 7, status := "passed" } (by decide)⟩

/-! ### Claim C7 -/

/-- Claim C7, counterexample: on a one-line input followed by a read error,
`processFile` returns the error, but the accompanying batch is NOT empty —
the named return still carries the accumulated partial batch, contradicting
the claim that the partial batch is discarded by the accumulator. -/
theorem c7_counterexample :
    processFile [samplePassLine] true = ([samplePassResult], some FileError.readError) ∧
    (processFile [samplePassLine] true).1 ≠ [] := by
  decide

/-- Claim C7, amended: a read error aborts processing and is fatal to the
run (the caller exits), but the accumulator itself returns the error
TOGETHER with the batch accumulated so far — the partial batch is carried,
not discarded; it is the caller that abandons it. -/
theorem c7_partial_batch_on_read_error (lines : List RawLine)
    (h : (entriesOf lines).length < 2000) :
    processFile lines true = (entriesOf lines, some FileError.readError) := by
  rw [processFile_spec, if_neg (by omega), if_pos rfl,
    List.take_of_length_le (by omega)]

/-- Claim C7, witness: the amended theorem on the concrete one-line
input. -/
theorem c7_witness :
    processFile [samplePassLine] true =
      (entriesOf [samplePassLine], some FileError.readError) :=
  c7_partial_batch_on_read_error [samplePassLine] (by decide)

/-! ### Claim C8 -/

theorem ratTrunc_sixty_two : ratTrunc ((1 / 16 : ℚ) * 1000) = 62 := by
  unfold ratTrunc
  rw [if_pos (by norm_num), Int.floor_eq_iff]
  constructor <;> norm_num

theorem sampleElapsedLine_result :
    processLine (.record sampleElapsedRecord) =
      .ok { package := "", testCaseId := 8, status := "passed"
            time := none, timeMs := 62 } := by
  have h := processLine_ok_of sampleElapsedRecord ['8'] TEST_CASE_RESULT_STATUS_PASSED none
    (by decide) (by decide) (by decide) (by decide) (by decide) (by decide)
  rw [h]
  have he : sampleElapsedRecord.elapsed = (1 / 16 : ℚ) := rfl
  simp only [he]
  rw [if_neg (by norm_num), ratTrunc_sixty_two]
  decide

/-- Claim C8, counterexample: for the exactly-representable elapsed value
`0.0625` seconds, the source computes `int64(0.0625 * 1000) = 62`
(truncation), whereas `round(0.0625 * 1000) = round(62.5) = 63` — so
elapsed-milliseconds is not `round(elapsed * 1000)`. -/
theorem c8_counterexample :
    processLine (.record sampleElapsedRecord) =
      .ok { package := "", testCaseId := 8, status := "passed"
            time := none, timeMs := 62 } ∧
    round (sampleElapsedRecord.elapsed * 1000) = 63 := by
  refine ⟨sampleElapsedLine_result, ?_⟩
  have he : sampleElapsedRecord.elapsed = (1 / 16 : ℚ) := rfl
  rw [he, round_eq, Int.floor_eq_iff]
  constructor <;> norm_num

/-- Claim C8, amended: for every validated record, elapsed-milliseconds of
the produced entry equals the truncation toward zero of `elapsed * 1000`
when the elapsed field is non-zero (the `int64` conversion discards the
fractional part; it does not round), and equals 0 when elapsed is zero or
absent. -/
theorem c8_elapsed_truncated (content : ReportJsonLine) (r : ReportResult)
    (h : processLine (.record content) = .ok r) :
    r.timeMs = if content.elapsed = 0 then 0 else ratTrunc (content.elapsed * 1000) :=
  (processLine_ok_inv content r h).2.2.2.2.2.1

/-- Claim C8, witness: the amended theorem on the concrete record with
elapsed `0.0625`. -/
theorem c8_witness :
    ({ package := "", testCaseId := 8, status := "passed"
       time := none, timeMs := 62 } : ReportResult).timeMs =
      if sampleElapsedRecord.elapsed = 0 then 0
      else ratTrunc (sampleElapsedRecord.elapsed * 1000) :=
  c8_elapsed_truncated sampleElapsedRecord _ sampleElapsedLine_result

end QaseReporter
